import Mathlib

set_option maxHeartbeats 1000000

/-!
Verification of the Carerix webhooks client and its command-line argument
parsing, as a shallow embedding of the TypeScript source
(src/carerix-webhooks-client.ts and the CLI entry point).

JavaScript runtime values are modelled by `JSVal` (JSON values plus the
distinguished `undefined`), objects by insertion-ordered association lists,
and the network boundary by a `Response` record holding the HTTP status,
status text, best-effort body text, and the JSON parse result of the body.
-/

/-- JavaScript values as seen by the client: JSON values plus `undefined`. -/
inductive JSVal : Type where
  | undef : JSVal
  | null : JSVal
  | bool : Bool → JSVal
  | num : Int → JSVal
  | str : String → JSVal
  | arr : List JSVal → JSVal
  | obj : List (String × JSVal) → JSVal

/-- JavaScript property assignment `o[k] = v` on an object represented as an
insertion-ordered association list: the first entry with key `k` is updated
in place, otherwise the pair is appended at the end. -/
def setKey {α : Type} : List (String × α) → String → α → List (String × α)
  | [], k, v => [(k, v)]
  | p :: rest, k, v => if p.1 = k then (k, v) :: rest else p :: setKey rest k v

/-- JavaScript optional-chained property access `o?.k`: `undefined` on
`null`/`undefined`/primitive receivers and on missing keys. -/
def getProp : JSVal → String → JSVal
  | JSVal.obj fields, k =>
    match fields.find? (fun p => p.1 == k) with
    | some p => p.2
    | none => JSVal.undef
  | _, _ => JSVal.undef

/-- The JavaScript nullish-coalescing operator `a ?? b`. -/
def nullish : JSVal → JSVal → JSVal
  | JSVal.undef, b => b
  | JSVal.null, b => b
  | a, _ => a

/-- JavaScript truthiness of a value. -/
def jsTruthy : JSVal → Bool
  | JSVal.undef => false
  | JSVal.null => false
  | JSVal.bool b => b
  | JSVal.num n => decide (n ≠ 0)
  | JSVal.str s => decide (s ≠ "")
  | JSVal.arr _ => true
  | JSVal.obj _ => true

/-- JavaScript object spread `{ ...base fields..., ...data }`: the
properties of `data` are assigned left to right onto `base`. Spreading an
array or a string contributes its index-keyed elements; spreading
`null`/`undefined`/other primitives contributes nothing. -/
def spreadInto (base : List (String × JSVal)) : JSVal → List (String × JSVal)
  | JSVal.obj fields => fields.foldl (fun acc p => setKey acc p.1 p.2) base
  | JSVal.arr xs => (xs.enum).foldl (fun acc p => setKey acc (toString p.1) p.2) base
  | JSVal.str s =>
      (s.data.enum).foldl
        (fun acc p => setKey acc (toString p.1) (JSVal.str (String.mk [p.2]))) base
  | _ => base

/-- The id resolution of `CarerixWebhooksClient.normalizeWebhook`:
`data?.id ?? data?._id ?? data?.webhookId ?? data?.uuid`. -/
def resolveId (data : JSVal) : JSVal :=
  nullish (nullish (nullish (getProp data "id") (getProp data "_id"))
    (getProp data "webhookId")) (getProp data "uuid")

/-- `CarerixWebhooksClient.normalizeWebhook`: `{ id, ...data }` with `id`
computed by the nullish-coalescing chain. -/
def normalizeWebhook (data : JSVal) : JSVal :=
  JSVal.obj (spreadInto [("id", resolveId data)] data)

/-- Key presence test on an object's field list (the `in` sense: the key
exists, whatever its value). -/
def hasKey (fields : List (String × JSVal)) (k : String) : Bool :=
  fields.any (fun p => p.1 == k)

/-- Lookup behaviour of `setKey`: the written key reads back the written
value and every other key is untouched. -/
theorem find?_setKey {α : Type} (m : List (String × α)) (k : String) (v : α) (q : String) :
    (setKey m k v).find? (fun p => p.1 == q) =
      if q = k then some (k, v) else m.find? (fun p => p.1 == q) := by
  induction m with
  | nil =>
    by_cases hqk : q = k
    · simp [setKey, List.find?, hqk]
    · have h1 : (k == q) = false := by simp; exact Ne.symm hqk
      simp [setKey, List.find?, hqk, h1]
  | cons p rest ih =>
    by_cases hpk : p.1 = k
    · by_cases hqk : q = k
      · subst hqk
        simp [setKey, hpk, List.find?]
      · have h1 : ((k, v).1 == q) = false := by
          simp [Ne.symm hqk]
        have h2 : (p.1 == q) = false := by
          simp [hpk]; exact Ne.symm hqk
        simp [setKey, hpk, List.find?, h1, h2, hqk]
    · by_cases hpq : p.1 = q
      · have hqk : q ≠ k := fun h => hpk (by rw [hpq, h])
        simp [setKey, hpk, List.find?, hpq, hqk]
      · have h2 : (p.1 == q) = false := by simp [hpq]
        simp [setKey, hpk, List.find?, h2, ih]

/-- Lookup behaviour of a left-to-right spread of `fields` onto `base`,
for field lists with no duplicate keys: a key of `fields` reads back its
value there, any other key falls through to `base`. -/
theorem find?_spread {α : Type} (fields : List (String × α)) (q : String) :
    ∀ base : List (String × α), (fields.map Prod.fst).Nodup →
    (fields.foldl (fun acc p => setKey acc p.1 p.2) base).find? (fun p => p.1 == q) =
      (match fields.find? (fun p => p.1 == q) with
      | some e => some e
      | none => base.find? (fun p => p.1 == q)) := by
  induction fields with
  | nil =>
    intro base _
    simp
  | cons a rest ih =>
    intro base h
    have hnd : (rest.map Prod.fst).Nodup := (List.nodup_cons.mp h).2
    have hnotin : a.1 ∉ rest.map Prod.fst := (List.nodup_cons.mp h).1
    simp only [List.foldl_cons]
    rw [ih _ hnd]
    by_cases haq : a.1 = q
    · have hrest : rest.find? (fun p => p.1 == q) = none := by
        apply List.find?_eq_none.mpr
        intro x hx
        simp only [beq_iff_eq]
        intro hxq
        exact hnotin (by rw [haq, ← hxq]; exact List.mem_map_of_mem Prod.fst hx)
      have hhead : (a.1 == q) = true := by simp [haq]
      rw [hrest, find?_setKey, if_pos haq.symm]
      simp [List.find?_cons_of_pos, hhead]
    · have hhead : (a.1 == q) = false := by simp [haq]
      rw [find?_setKey, if_neg (fun h => haq h.symm)]
      cases hr : rest.find? (fun p => p.1 == q) with
      | none => simp [List.find?_cons, hhead, hr]
      | some e => simp [List.find?_cons, hhead, hr]

/-- The id the claim predicts: the value of the highest-priority field whose
key is present among `id`, `_id`, `webhookId`, `uuid` (first present wins),
`undefined` if none is present. -/
def priorityPresentId (fields : List (String × JSVal)) : JSVal :=
  if hasKey fields "id" then getProp (JSVal.obj fields) "id"
  else if hasKey fields "_id" then getProp (JSVal.obj fields) "_id"
  else if hasKey fields "webhookId" then getProp (JSVal.obj fields) "webhookId"
  else if hasKey fields "uuid" then getProp (JSVal.obj fields) "uuid"
  else JSVal.undef

theorem hasKey_find? (fields : List (String × JSVal)) (q : String) :
    hasKey fields q = (fields.find? (fun p => p.1 == q)).isSome := by
  induction fields with
  | nil => simp [hasKey]
  | cons a rest ih =>
    by_cases h : a.1 = q
    · simp [hasKey, List.find?_cons, h]
    · have hb : (a.1 == q) = false := by simp [h]
      simp [hasKey, List.find?_cons, hb] at ih ⊢
      exact ih

/-- C1 (amended): normalization keeps every original key/value pair of the
object unchanged and adds no key other than `id`; the resolved `id` is the
original `id` value whenever the key `id` is present (even if `null`), and
otherwise the value of the nullish-coalescing chain over `_id`,
`webhookId`, `uuid`: the first non-nullish value among them, and when all
three are nullish the chain's last operand as-is, that is `uuid`'s own
value (`null` when `uuid` is present with value `null`, `undefined` when
`uuid` is absent). -/
theorem normalizeWebhook_id_resolution (fields : List (String × JSVal))
    (hnd : (fields.map Prod.fst).Nodup) :
    (hasKey fields "id" = true →
      getProp (normalizeWebhook (JSVal.obj fields)) "id" = getProp (JSVal.obj fields) "id")
    ∧ (hasKey fields "id" = false →
      getProp (normalizeWebhook (JSVal.obj fields)) "id" =
        nullish (nullish (getProp (JSVal.obj fields) "_id")
          (getProp (JSVal.obj fields) "webhookId")) (getProp (JSVal.obj fields) "uuid"))
    ∧ (∀ k : String, k ≠ "id" →
      getProp (normalizeWebhook (JSVal.obj fields)) k = getProp (JSVal.obj fields) k) := by
  have hspread : ∀ q : String,
      getProp (normalizeWebhook (JSVal.obj fields)) q =
        (match fields.find? (fun p => p.1 == q) with
        | some e => e.2
        | none => getProp (JSVal.obj [("id", resolveId (JSVal.obj fields))]) q) := by
    intro q
    show (match (spreadInto [("id", resolveId (JSVal.obj fields))]
          (JSVal.obj fields)).find? (fun p => p.1 == q) with
        | some p => p.2
        | none => JSVal.undef) = _
    rw [show spreadInto [("id", resolveId (JSVal.obj fields))] (JSVal.obj fields) =
        fields.foldl (fun acc p => setKey acc p.1 p.2)
          [("id", resolveId (JSVal.obj fields))] from rfl]
    rw [find?_spread fields q _ hnd]
    cases hf : fields.find? (fun p => p.1 == q) with
    | some e => simp
    | none => simp [getProp]
  refine ⟨?_, ?_, ?_⟩
  · intro hk
    rw [hspread "id"]
    rw [hasKey_find? fields "id"] at hk
    cases hf : fields.find? (fun p => p.1 == "id") with
    | some e =>
      show e.2 = _
      simp [getProp, hf]
    | none => rw [hf] at hk; simp at hk
  · intro hk
    rw [hspread "id"]
    rw [hasKey_find? fields "id"] at hk
    cases hf : fields.find? (fun p => p.1 == "id") with
    | some e => rw [hf] at hk; simp at hk
    | none =>
      show getProp (JSVal.obj [("id", resolveId (JSVal.obj fields))]) "id" = _
      have hid : getProp (JSVal.obj fields) "id" = JSVal.undef := by
        simp [getProp, hf]
      show resolveId (JSVal.obj fields) = _
      rw [resolveId, hid]
      rfl
  · intro k hk
    rw [hspread k]
    cases hf : fields.find? (fun p => p.1 == k) with
    | some e => simp [getProp, hf]
    | none =>
      have hb : (("id" : String) == k) = false := by simp [Ne.symm hk]
      simp [getProp, hf, List.find?, hb]

/-- C1 counterexample to the claim as stated: on `{"_id": null}` the code
resolves `id` to `undefined` (nullish coalescing skips the `null`-valued
`_id`), while the highest-priority present field `_id` has value `null`. -/
theorem normalizeWebhook_priority_claim_counterexample :
    getProp (normalizeWebhook (JSVal.obj [("_id", JSVal.null)])) "id" = JSVal.undef
    ∧ priorityPresentId [("_id", JSVal.null)] = JSVal.null
    ∧ JSVal.undef ≠ JSVal.null := by
  refine ⟨rfl, rfl, fun h => ?_⟩
  cases h

/-- C1 witness: on `{"uuid": "u", "note": 7}` the amended theorem yields
`id = "u"` and preserves the vendor field `note`; on `{"uuid": null}`,
where every chain operand is nullish, it yields the last operand's value
`null` (not `undefined`). -/
theorem normalizeWebhook_id_resolution_witness :
    getProp (normalizeWebhook (JSVal.obj [("uuid", JSVal.str "u"), ("note", JSVal.num 7)])) "id"
      = JSVal.str "u"
    ∧ getProp (normalizeWebhook (JSVal.obj [("uuid", JSVal.str "u"), ("note", JSVal.num 7)])) "note"
      = JSVal.num 7
    ∧ getProp (normalizeWebhook (JSVal.obj [("uuid", JSVal.null)])) "id" = JSVal.null := by
  have h := normalizeWebhook_id_resolution
    [("uuid", JSVal.str "u"), ("note", JSVal.num 7)] (by decide)
  have h2 := normalizeWebhook_id_resolution [("uuid", JSVal.null)] (by decide)
  exact ⟨(h.2.1 (by decide)).trans rfl, (h.2.2 "note" (by decide)).trans rfl,
    (h2.2.1 (by decide)).trans rfl⟩

/-- The outcome of one HTTP exchange, as the client observes it: status,
status text, best-effort body text (`res.text()` with its catch-to-empty),
and the JSON parse of the body (`none` when `res.json()` would reject). -/
structure Response where
  status : Nat
  statusText : String
  text : String
  json : Option JSVal

/-- A failure raised inside a client call: a thrown `Error(msg)`, or the
rejection of `res.json()` on a body that is not JSON. -/
inductive JsError where
  | error : String → JsError
  | jsonParse : JsError
deriving DecidableEq

/-- `res.ok`: the status is in the 2xx range. -/
def resOk (r : Response) : Bool :=
  decide (200 ≤ r.status) && decide (r.status < 300)

/-- `CarerixWebhooksClient.getAccessToken`, from the token endpoint's
response onward: non-2xx throws with status, status text and body text;
then the body is parsed as JSON; a falsy `data?.access_token` throws
`No access_token in OAuth response`, otherwise `data.access_token` is
returned. -/
def getAccessToken (res : Response) : Except JsError JSVal :=
  if resOk res = false then
    Except.error (JsError.error ("Failed to fetch access token: "
      ++ toString res.status ++ " " ++ res.statusText ++ " " ++ res.text))
  else
    match res.json with
    | none => Except.error JsError.jsonParse
    | some data =>
      if jsTruthy (getProp data "access_token") = false then
        Except.error (JsError.error "No access_token in OAuth response")
      else Except.ok (getProp data "access_token")

/-- The response-shape dispatch of `listWebhooks`: a bare array is taken as
is, else an array-valued `items` field, else a truthy body is a one-element
result, else the result is empty. -/
def listItems : JSVal → List JSVal
  | JSVal.arr xs => xs
  | data =>
    match getProp data "items" with
    | JSVal.arr xs => xs
    | _ => if jsTruthy data then [data] else []

/-- `CarerixWebhooksClient.createWebhook`, from the token-endpoint response
and the webhook-endpoint response onward. -/
def createWebhook (tokenRes res : Response) : Except JsError JSVal :=
  match getAccessToken tokenRes with
  | Except.error e => Except.error e
  | Except.ok _ =>
    if resOk res = false then
      Except.error (JsError.error ("Create webhook failed: "
        ++ toString res.status ++ " " ++ res.statusText ++ " " ++ res.text))
    else
      match res.json with
      | none => Except.error JsError.jsonParse
      | some data => Except.ok (normalizeWebhook data)

/-- `CarerixWebhooksClient.listWebhooks`, from the two responses onward. -/
def listWebhooks (tokenRes res : Response) : Except JsError (List JSVal) :=
  match getAccessToken tokenRes with
  | Except.error e => Except.error e
  | Except.ok _ =>
    if resOk res = false then
      Except.error (JsError.error ("List webhooks failed: "
        ++ toString res.status ++ " " ++ res.statusText ++ " " ++ res.text))
    else
      match res.json with
      | none => Except.error JsError.jsonParse
      | some data => Except.ok ((listItems data).map normalizeWebhook)

/-- `CarerixWebhooksClient.enableWebhook`, from the two responses onward. -/
def enableWebhook (tokenRes res : Response) : Except JsError JSVal :=
  match getAccessToken tokenRes with
  | Except.error e => Except.error e
  | Except.ok _ =>
    if resOk res = false then
      Except.error (JsError.error ("Enable webhook failed: "
        ++ toString res.status ++ " " ++ res.statusText ++ " " ++ res.text))
    else
      match res.json with
      | none => Except.error JsError.jsonParse
      | some data => Except.ok (normalizeWebhook data)

/-- `CarerixWebhooksClient.disableWebhook`, from the two responses onward. -/
def disableWebhook (tokenRes res : Response) : Except JsError JSVal :=
  match getAccessToken tokenRes with
  | Except.error e => Except.error e
  | Except.ok _ =>
    if resOk res = false then
      Except.error (JsError.error ("Disable webhook failed: "
        ++ toString res.status ++ " " ++ res.statusText ++ " " ++ res.text))
    else
      match res.json with
      | none => Except.error JsError.jsonParse
      | some data => Except.ok (normalizeWebhook data)

/-- `CarerixWebhooksClient.deleteWebhook`, from the two responses onward:
no body is parsed, success is the 2xx status alone. -/
def deleteWebhook (tokenRes res : Response) : Except JsError Unit :=
  match getAccessToken tokenRes with
  | Except.error e => Except.error e
  | Except.ok _ =>
    if resOk res = false then
      Except.error (JsError.error ("Delete webhook failed: "
        ++ toString res.status ++ " " ++ res.statusText ++ " " ++ res.text))
    else Except.ok ()

/-- The claim-side success condition for C3: the parsed body has an
`access_token` field holding a non-empty string. -/
def tokenFieldNonEmptyString (data : JSVal) : Bool :=
  match getProp data "access_token" with
  | JSVal.str s => decide (s ≠ "")
  | _ => false

/-- C3 (amended): token acquisition succeeds with `data.access_token`
exactly when the endpoint answers 2xx with a JSON body whose
`access_token` field is truthy (not only non-empty strings). A non-2xx
status fails with an error carrying the status, status text and
best-effort body text; a 2xx JSON body with a falsy or missing token
fails with the fixed message `No access_token in OAuth response`
(carrying no status information); a 2xx non-JSON body fails with the
JSON parse rejection itself. -/
theorem getAccessToken_outcomes (res : Response) :
    (resOk res = false →
      getAccessToken res = Except.error (JsError.error ("Failed to fetch access token: "
        ++ toString res.status ++ " " ++ res.statusText ++ " " ++ res.text)))
    ∧ (resOk res = true → res.json = none →
      getAccessToken res = Except.error JsError.jsonParse)
    ∧ (∀ data, resOk res = true → res.json = some data →
      jsTruthy (getProp data "access_token") = false →
      getAccessToken res = Except.error (JsError.error "No access_token in OAuth response"))
    ∧ (∀ data, resOk res = true → res.json = some data →
      jsTruthy (getProp data "access_token") = true →
      getAccessToken res = Except.ok (getProp data "access_token")) := by
  refine ⟨?_, ?_, ?_, ?_⟩
  · intro h
    simp [getAccessToken, h]
  · intro h hj
    simp [getAccessToken, h, hj]
  · intro data h hj ht
    simp [getAccessToken, h, hj, ht]
  · intro data h hj ht
    simp [getAccessToken, h, hj, ht]

/-- C3 counterexample to the claim as stated: a 2xx response whose JSON
body is `{"access_token": 42}` succeeds and returns `42`, although the
`access_token` field is not a non-empty string, so success is not
restricted to non-empty string tokens. -/
theorem getAccessToken_nonstring_token_counterexample :
    getAccessToken ⟨200, "OK", "", some (JSVal.obj [("access_token", JSVal.num 42)])⟩
      = Except.ok (JSVal.num 42)
    ∧ tokenFieldNonEmptyString (JSVal.obj [("access_token", JSVal.num 42)]) = false := by
  exact ⟨rfl, rfl⟩

/-- C3 witness: a 2xx response with body `{"access_token": "tok"}`
succeeds and returns the token. -/
theorem getAccessToken_outcomes_witness :
    getAccessToken ⟨200, "OK", "", some (JSVal.obj [("access_token", JSVal.str "tok")])⟩
      = Except.ok (JSVal.str "tok") := by
  have h := (getAccessToken_outcomes
    ⟨200, "OK", "", some (JSVal.obj [("access_token", JSVal.str "tok")])⟩).2.2.2
    (JSVal.obj [("access_token", JSVal.str "tok")]) (by decide) rfl (by decide)
  exact h.trans rfl

/-- Unfolding of the shape dispatch of `listWebhooks` on a body that is not
a bare array. -/
theorem listItems_not_arr (data : JSVal) (h : ∀ ys, data ≠ JSVal.arr ys) :
    listItems data = (match getProp data "items" with
      | JSVal.arr xs => xs
      | _ => if jsTruthy data then [data] else []) := by
  cases data with
  | arr ys => exact absurd rfl (h ys)
  | undef => rfl
  | null => rfl
  | bool b => rfl
  | num n => rfl
  | str s => rfl
  | obj fields => rfl

/-- A token-endpoint response that succeeds, for use in concrete runs. -/
def tokenResOk : Response :=
  ⟨200, "OK", "", some (JSVal.obj [("access_token", JSVal.str "tok")])⟩

/-- C2 (amended): on a successful exchange, the result is the selected
items each normalized, in order; a bare array of length N gives its N
elements in order, an object with an array-valued `items` field gives
those elements in order, and otherwise a truthy body (in particular a
single object) gives exactly that one element while a falsy body
(`null`, `false`, `0`, the empty string) gives the empty sequence. -/
theorem listWebhooks_shapes (tokenRes res : Response) (data : JSVal)
    (htok : ∃ t, getAccessToken tokenRes = Except.ok t)
    (hok : resOk res = true) (hjson : res.json = some data) :
    listWebhooks tokenRes res = Except.ok ((listItems data).map normalizeWebhook)
    ∧ (∀ xs, data = JSVal.arr xs → listItems data = xs)
    ∧ (∀ xs, (∀ ys, data ≠ JSVal.arr ys) → getProp data "items" = JSVal.arr xs →
        listItems data = xs)
    ∧ ((∀ ys, data ≠ JSVal.arr ys) → (∀ xs, getProp data "items" ≠ JSVal.arr xs) →
        jsTruthy data = true → listItems data = [data])
    ∧ ((∀ ys, data ≠ JSVal.arr ys) → (∀ xs, getProp data "items" ≠ JSVal.arr xs) →
        jsTruthy data = false → listItems data = []) := by
  obtain ⟨t, ht⟩ := htok
  refine ⟨by simp [listWebhooks, ht, hok, hjson], ?_, ?_, ?_, ?_⟩
  · intro xs h
    subst h
    rfl
  · intro xs hne hitems
    rw [listItems_not_arr data hne, hitems]
  · intro hne hni htr
    rw [listItems_not_arr data hne]
    cases hgp : getProp data "items" with
    | arr xs => exact absurd hgp (hni xs)
    | undef => simp [htr]
    | null => simp [htr]
    | bool b => simp [htr]
    | num n => simp [htr]
    | str s => simp [htr]
    | obj fields => simp [htr]
  · intro hne hni htr
    rw [listItems_not_arr data hne]
    cases hgp : getProp data "items" with
    | arr xs => exact absurd hgp (hni xs)
    | undef => simp [htr]
    | null => simp [htr]
    | bool b => simp [htr]
    | num n => simp [htr]
    | str s => simp [htr]
    | obj fields => simp [htr]

/-- C2 counterexample to the claim as stated: a 2xx body that is the bare
JSON string `"x"` is neither an array, nor an object with an `items`
array, nor an object, yet `listWebhooks` returns one entry (the string is
truthy), not the empty sequence the claim requires for such shapes. -/
theorem listWebhooks_other_shape_counterexample :
    listWebhooks tokenResOk ⟨200, "OK", "", some (JSVal.str "x")⟩
      = Except.ok [JSVal.obj [("id", JSVal.undef), ("0", JSVal.str "x")]]
    ∧ listWebhooks tokenResOk ⟨200, "OK", "", some (JSVal.str "x")⟩
      ≠ Except.ok [] := by
  refine ⟨rfl, ?_⟩
  intro h
  rw [show listWebhooks tokenResOk ⟨200, "OK", "", some (JSVal.str "x")⟩
      = Except.ok [JSVal.obj [("id", JSVal.undef), ("0", JSVal.str "x")]] from rfl] at h
  simp at h

/-- C2 witness: a bare two-element array body yields the two normalized
entries in order. -/
theorem listWebhooks_shapes_witness :
    listWebhooks tokenResOk
      ⟨200, "OK", "", some (JSVal.arr
        [JSVal.obj [("_id", JSVal.str "a")], JSVal.obj [("id", JSVal.str "b")]])⟩
      = Except.ok [JSVal.obj [("id", JSVal.str "a"), ("_id", JSVal.str "a")],
          JSVal.obj [("id", JSVal.str "b")]] := by
  have h := (listWebhooks_shapes tokenResOk
    ⟨200, "OK", "", some (JSVal.arr
      [JSVal.obj [("_id", JSVal.str "a")], JSVal.obj [("id", JSVal.str "b")]])⟩
    (JSVal.arr [JSVal.obj [("_id", JSVal.str "a")], JSVal.obj [("id", JSVal.str "b")]])
    ⟨JSVal.str "tok", rfl⟩ (by decide) rfl).1
  exact h.trans rfl

/-- A non-2xx webhook-endpoint response, for concrete runs. -/
def res404 : Response := ⟨404, "Not Found", "nope", none⟩

/-- C4: once the token step has succeeded, a non-2xx response from the
webhook endpoint makes each of the five public operations fail with an
error whose message names the operation and spells out the numeric HTTP
status and the status text (followed by the best-effort body text); no
normalized result is returned. -/
theorem webhook_ops_non2xx_request_error (tokenRes res : Response)
    (htok : ∃ t, getAccessToken tokenRes = Except.ok t)
    (hbad : resOk res = false) :
    createWebhook tokenRes res = Except.error (JsError.error ("Create webhook failed: "
      ++ toString res.status ++ " " ++ res.statusText ++ " " ++ res.text))
    ∧ listWebhooks tokenRes res = Except.error (JsError.error ("List webhooks failed: "
      ++ toString res.status ++ " " ++ res.statusText ++ " " ++ res.text))
    ∧ enableWebhook tokenRes res = Except.error (JsError.error ("Enable webhook failed: "
      ++ toString res.status ++ " " ++ res.statusText ++ " " ++ res.text))
    ∧ disableWebhook tokenRes res = Except.error (JsError.error ("Disable webhook failed: "
      ++ toString res.status ++ " " ++ res.statusText ++ " " ++ res.text))
    ∧ deleteWebhook tokenRes res = Except.error (JsError.error ("Delete webhook failed: "
      ++ toString res.status ++ " " ++ res.statusText ++ " " ++ res.text)) := by
  obtain ⟨t, ht⟩ := htok
  refine ⟨?_, ?_, ?_, ?_, ?_⟩
  · simp [createWebhook, ht, hbad]
  · simp [listWebhooks, ht, hbad]
  · simp [enableWebhook, ht, hbad]
  · simp [disableWebhook, ht, hbad]
  · simp [deleteWebhook, ht, hbad]

/-- C4 witness: a 404 with status text `Not Found` and body `nope` makes
all five operations fail with the operation-naming message. -/
theorem webhook_ops_non2xx_request_error_witness :
    createWebhook tokenResOk res404 = Except.error (JsError.error ("Create webhook failed: "
      ++ toString res404.status ++ " " ++ res404.statusText ++ " " ++ res404.text))
    ∧ listWebhooks tokenResOk res404 = Except.error (JsError.error ("List webhooks failed: "
      ++ toString res404.status ++ " " ++ res404.statusText ++ " " ++ res404.text))
    ∧ enableWebhook tokenResOk res404 = Except.error (JsError.error ("Enable webhook failed: "
      ++ toString res404.status ++ " " ++ res404.statusText ++ " " ++ res404.text))
    ∧ disableWebhook tokenResOk res404 = Except.error (JsError.error ("Disable webhook failed: "
      ++ toString res404.status ++ " " ++ res404.statusText ++ " " ++ res404.text))
    ∧ deleteWebhook tokenResOk res404 = Except.error (JsError.error ("Delete webhook failed: "
      ++ toString res404.status ++ " " ++ res404.statusText ++ " " ++ res404.text)) := by
  exact webhook_ops_non2xx_request_error tokenResOk res404 ⟨JSVal.str "tok", rfl⟩ (by decide)

/-- OAuth2 client-credentials settings of the configuration record. -/
structure OAuthConfig where
  authEndpoint : String
  clientID : String
  clientSecret : String
  scopes : Option String

/-- The `CarerixConfig` record the client is constructed from. -/
structure CarerixConfig where
  baseUrl : String
  applicationId : String
  oauth : OAuthConfig

/-- The private state of a constructed `CarerixWebhooksClient`. -/
structure ClientState where
  baseUrl : String
  applicationId : String
  oauth : OAuthConfig

/-- `config.baseUrl.replace(/\/$/, "")`: remove one trailing slash if the
string ends with one. -/
def stripTrailingSlash (s : String) : String :=
  match s.data.getLast? with
  | some c => if c = '/' then String.mk s.data.dropLast else s
  | none => s

/-- The `CarerixWebhooksClient` constructor. -/
def mkCarerixWebhooksClient (config : CarerixConfig) : ClientState :=
  { baseUrl := stripTrailingSlash config.baseUrl
    applicationId := config.applicationId
    oauth := config.oauth }

/-- The characters `encodeURIComponent` leaves unescaped. -/
def isUriUnreserved (c : Char) : Bool :=
  c.isAlpha || c.isDigit || c == '-' || c == '_' || c == '.' || c == '!'
    || c == '~' || c == '*' || c == Char.ofNat 39 || c == '(' || c == ')'

/-- Upper-case hexadecimal digit of a value below 16. -/
def hexUpper (n : Nat) : Char :=
  if n < 10 then Char.ofNat (48 + n) else Char.ofNat (55 + n)

/-- The UTF-8 encoding of one character, as byte values. -/
def utf8Bytes (c : Char) : List Nat :=
  let n := c.toNat
  if n < 128 then [n]
  else if n < 2048 then [192 + n / 64, 128 + n % 64]
  else if n < 65536 then [224 + n / 4096, 128 + n / 64 % 64, 128 + n % 64]
  else [240 + n / 262144, 128 + n / 4096 % 64, 128 + n / 64 % 64, 128 + n % 64]

/-- Percent-escape of one byte, `%XX` with upper-case hex. -/
def pctByte (b : Nat) : List Char :=
  ['%', hexUpper (b / 16), hexUpper (b % 16)]

/-- Encoding of one character under `encodeURIComponent`. -/
def encodeChar (c : Char) : List Char :=
  if isUriUnreserved c then [c] else ((utf8Bytes c).map pctByte).flatten

/-- JavaScript `encodeURIComponent`. -/
def encodeURIComponent (s : String) : String :=
  String.mk ((s.data.map encodeChar).flatten)

/-- `CarerixWebhooksClient.appUrl`: the template
`${baseUrl}/applications/${applicationId}${path}`. -/
def appUrl (c : ClientState) (path : String) : String :=
  c.baseUrl ++ "/applications/" ++ c.applicationId ++ path

/-- The URL `createWebhook` posts to. -/
def createWebhookUrl (c : ClientState) : String :=
  appUrl c "/webhooks"

/-- The URL `listWebhooks` fetches. -/
def listWebhooksUrl (c : ClientState) : String :=
  appUrl c "/webhooks"

/-- The URL `enableWebhook` posts to. -/
def enableWebhookUrl (c : ClientState) (webhookId : String) : String :=
  appUrl c ("/webhooks/" ++ encodeURIComponent webhookId ++ "/enable")

/-- The URL `disableWebhook` posts to. -/
def disableWebhookUrl (c : ClientState) (webhookId : String) : String :=
  appUrl c ("/webhooks/" ++ encodeURIComponent webhookId ++ "/disable")

/-- The URL `deleteWebhook` deletes. -/
def deleteWebhookUrl (c : ClientState) (webhookId : String) : String :=
  appUrl c ("/webhooks/" ++ encodeURIComponent webhookId)

theorem strAppend_assoc (a b c : String) : a ++ b ++ c = a ++ (b ++ c) := by
  obtain ⟨la⟩ := a
  obtain ⟨lb⟩ := b
  obtain ⟨lc⟩ := c
  show String.mk (la ++ lb ++ lc) = String.mk (la ++ (lb ++ lc))
  rw [List.append_assoc]

/-- C9: construction strips exactly one trailing slash from `baseUrl`
(a `baseUrl` not ending in a slash is unchanged), and all five operations
address `<baseUrl>/applications/<applicationId>/webhooks[...]` with the
application id embedded verbatim and the webhook id percent-encoded. -/
theorem carerix_client_urls (config : CarerixConfig) (wid : String) :
    (mkCarerixWebhooksClient config).baseUrl = stripTrailingSlash config.baseUrl
    ∧ (∀ s : String, stripTrailingSlash (s ++ "/") = s)
    ∧ (config.baseUrl.data.getLast? ≠ some '/' →
        (mkCarerixWebhooksClient config).baseUrl = config.baseUrl)
    ∧ createWebhookUrl (mkCarerixWebhooksClient config)
        = (mkCarerixWebhooksClient config).baseUrl ++ "/applications/"
          ++ config.applicationId ++ "/webhooks"
    ∧ listWebhooksUrl (mkCarerixWebhooksClient config)
        = (mkCarerixWebhooksClient config).baseUrl ++ "/applications/"
          ++ config.applicationId ++ "/webhooks"
    ∧ enableWebhookUrl (mkCarerixWebhooksClient config) wid
        = (mkCarerixWebhooksClient config).baseUrl ++ "/applications/"
          ++ config.applicationId ++ "/webhooks/" ++ encodeURIComponent wid ++ "/enable"
    ∧ disableWebhookUrl (mkCarerixWebhooksClient config) wid
        = (mkCarerixWebhooksClient config).baseUrl ++ "/applications/"
          ++ config.applicationId ++ "/webhooks/" ++ encodeURIComponent wid ++ "/disable"
    ∧ deleteWebhookUrl (mkCarerixWebhooksClient config) wid
        = (mkCarerixWebhooksClient config).baseUrl ++ "/applications/"
          ++ config.applicationId ++ "/webhooks/" ++ encodeURIComponent wid := by
  refine ⟨rfl, ?_, ?_, rfl, rfl, ?_, ?_, ?_⟩
  · intro s
    obtain ⟨l⟩ := s
    show stripTrailingSlash (String.mk (l ++ ['/'])) = String.mk l
    simp [stripTrailingSlash, List.getLast?_concat, List.dropLast_concat]
  · intro h
    show stripTrailingSlash config.baseUrl = config.baseUrl
    unfold stripTrailingSlash
    cases h2 : config.baseUrl.data.getLast? with
    | none => rfl
    | some c =>
      rw [h2] at h
      have hc : c ≠ '/' := fun hc => h (by rw [hc])
      simp [hc]
  · simp only [enableWebhookUrl, appUrl, strAppend_assoc, mkCarerixWebhooksClient]
  · simp only [disableWebhookUrl, appUrl, strAppend_assoc, mkCarerixWebhooksClient]
  · simp only [deleteWebhookUrl, appUrl, strAppend_assoc, mkCarerixWebhooksClient]

/-- A configuration with a trailing slash on the base URL. -/
def cfgSlash : CarerixConfig :=
  ⟨"https://api.example.test/v1/", "app-1", ⟨"https://auth.example.test", "cid", "sec", none⟩⟩

/-- A configuration without a trailing slash on the base URL. -/
def cfgNoSlash : CarerixConfig :=
  ⟨"https://api.example.test/v1", "app-1", ⟨"https://auth.example.test", "cid", "sec", none⟩⟩

/-- C9 witness: the trailing slash is stripped, a slash-free base URL is
kept, and the enable URL percent-encodes the webhook id `w 1/x`. -/
theorem carerix_client_urls_witness :
    (mkCarerixWebhooksClient cfgSlash).baseUrl = "https://api.example.test/v1"
    ∧ (mkCarerixWebhooksClient cfgNoSlash).baseUrl = "https://api.example.test/v1"
    ∧ enableWebhookUrl (mkCarerixWebhooksClient cfgNoSlash) "w 1/x"
      = "https://api.example.test/v1/applications/app-1/webhooks/w%201%2Fx/enable" := by
  refine ⟨(carerix_client_urls cfgSlash "w 1/x").1.trans (by decide),
    (carerix_client_urls cfgNoSlash "w 1/x").2.2.1 (by decide),
    ((carerix_client_urls cfgNoSlash "w 1/x").2.2.2.2.2.1).trans (by decide)⟩

/-- A value in the CLI flag map: `string | boolean | string[]`. -/
inductive FlagVal where
  | str : String → FlagVal
  | bool : Bool → FlagVal
  | arr : List String → FlagVal
deriving DecidableEq

/-- The `ParsedArgs` record produced by the CLI parser. -/
structure ParsedArgs where
  envFile : Option String
  command : Option String
  params : List String
  flags : List (String × FlagVal)
deriving DecidableEq

/-- Lookup in the flag map, `flags[k]` (`none` for a missing key). -/
def getFlag (m : List (String × FlagVal)) (k : String) : Option FlagVal :=
  (m.find? (fun p => p.1 == k)).map (fun p => p.2)

/-- The `ensureArray(k)` + `push(v)` step of the parser: an existing
array-valued flag gets `v` appended, anything else becomes the
one-element array `[v]`. -/
def pushFlag (m : List (String × FlagVal)) (k : String) (v : String) :
    List (String × FlagVal) :=
  match getFlag m k with
  | some (FlagVal.arr xs) => setKey m k (FlagVal.arr (xs ++ [v]))
  | _ => setKey m k (FlagVal.arr [v])

/-- JavaScript `a.startsWith("-")`. -/
def isDashToken (a : String) : Bool :=
  match a.data with
  | '-' :: _ => true
  | _ => false

/-- JavaScript `a.replace(/^--?/, "")`: drop two leading dashes if present,
else one, else nothing. -/
def stripDashes (a : String) : String :=
  match a.data with
  | '-' :: '-' :: rest => String.mk rest
  | '-' :: rest => String.mk rest
  | _ => a

/-- The global-flag scan before the command token: leading `--env <value>`
pairs are captured (last occurrence wins), the first other token stops the
scan; a trailing lone `--env` also stops it. -/
def globalScan : List String → Option String → Option String × List String
  | "--env" :: b :: rest, _ => globalScan rest (some b)
  | l, env => (env, l)

/-- The post-command token loop of `parseArgs`: `--env` consumes and
discards a value; `--url` stores a string; `--event`/`-e` and
`--header`/`-H` push onto array flags; any other dash token becomes a
boolean flag under its dash-stripped name; anything else is a positional
parameter. A value-taking flag in last position falls through to the
boolean branch because the lookahead fails. -/
def parseRest (flags : List (String × FlagVal)) (params : List String) :
    List String → List (String × FlagVal) × List String
  | [] => (flags, params)
  | ["--env"] => (flags, params)
  | "--env" :: _ :: rest => parseRest flags params rest
  | "--url" :: b :: rest => parseRest (setKey flags "url" (FlagVal.str b)) params rest
  | "--event" :: b :: rest => parseRest (pushFlag flags "event" b) params rest
  | "-e" :: b :: rest => parseRest (pushFlag flags "event" b) params rest
  | "--header" :: b :: rest => parseRest (pushFlag flags "header" b) params rest
  | "-H" :: b :: rest => parseRest (pushFlag flags "header" b) params rest
  | a :: rest =>
    if isDashToken a then
      parseRest (setKey flags (stripDashes a) (FlagVal.bool true)) params rest
    else parseRest flags (params ++ [a]) rest

/-- The CLI `parseArgs`, on the full `process.argv` (the first two entries
are dropped): empty or `--help`/`-h` anywhere yields the usage result;
then leading `--env <path>` pairs are captured, the next token is the
command, and the remaining tokens are parsed by the command-flag loop. -/
def parseArgs (argv : List String) : ParsedArgs :=
  let args := argv.drop 2
  if args = [] ∨ "--help" ∈ args ∨ "-h" ∈ args then
    { envFile := none, command := none, params := [], flags := [] }
  else
    match globalScan args none with
    | (env, []) => { envFile := env, command := none, params := [], flags := [] }
    | (env, c :: rest2) =>
      match parseRest [] [] rest2 with
      | (flags, params) =>
        { envFile := env, command := some c, params := params, flags := flags }

/-- One custom webhook header, `{ name, value }`. -/
structure WebhookHeader where
  name : String
  value : String
deriving DecidableEq

/-- JavaScript `String.prototype.trim`: whitespace removed from both
ends. -/
def jsTrim (s : String) : String :=
  String.mk (((s.data.dropWhile Char.isWhitespace).reverse.dropWhile Char.isWhitespace).reverse)

/-- One iteration of the `parseHeaders` loop: `v.indexOf("=")` is modelled
by splitting at the first `=`; no `=` throws `Expected key=value`, an
empty trimmed name throws `Name is empty`, otherwise the trimmed halves
form the header. -/
def parseHeaderToken (v : String) : Except JsError WebhookHeader :=
  match v.data.dropWhile (fun c => c != '=') with
  | [] => Except.error (JsError.error
      ("Invalid --header value: " ++ v ++ ". Expected key=value."))
  | _ :: after =>
    let name := jsTrim (String.mk (v.data.takeWhile (fun c => c != '=')))
    let value := jsTrim (String.mk after)
    if name = "" then
      Except.error (JsError.error ("Invalid --header value: " ++ v ++ ". Name is empty."))
    else Except.ok { name := name, value := value }

/-- The `parseHeaders` loop over the token list, stopping at the first
failure. -/
def parseHeaderList : List String → Except JsError (List WebhookHeader)
  | [] => Except.ok []
  | v :: rest =>
    match parseHeaderToken v with
    | Except.error e => Except.error e
    | Except.ok h =>
      match parseHeaderList rest with
      | Except.error e => Except.error e
      | Except.ok hs => Except.ok (h :: hs)

/-- The final `out.length ? out : undefined` of `parseHeaders`. -/
def wrapHeaders : Except JsError (List WebhookHeader) →
    Except JsError (Option (List WebhookHeader))
  | Except.error e => Except.error e
  | Except.ok [] => Except.ok none
  | Except.ok hs => Except.ok (some hs)

/-- The CLI `parseHeaders`: `undefined`, `true` and every other falsy
input (`false`, the empty string) yield `undefined`; a string is treated
as a one-element list; a list is parsed element-wise; an empty result is
returned as `undefined`. -/
def parseHeaders : Option FlagVal → Except JsError (Option (List WebhookHeader))
  | none => Except.ok none
  | some (FlagVal.bool _) => Except.ok none
  | some (FlagVal.str s) =>
    if s = "" then Except.ok none
    else wrapHeaders (parseHeaderList [s])
  | some (FlagVal.arr l) => wrapHeaders (parseHeaderList l)

theorem takeWhile_no_eq (v : List Char) (h : '=' ∉ v) :
    v.takeWhile (fun c => c != '=') = v
    ∧ v.dropWhile (fun c => c != '=') = [] := by
  induction v with
  | nil => simp
  | cons c l ih =>
    have hc : c ≠ '=' := fun hc => h (by rw [hc]; exact List.mem_cons_self _ _)
    have hl : '=' ∉ l := fun hl => h (List.mem_cons_of_mem _ hl)
    have hb : (c != '=') = true := by simp [hc]
    simp [List.takeWhile_cons, List.dropWhile_cons, hb, (ih hl).1, (ih hl).2]

theorem takeWhile_first_eq (pre post : List Char) (h : '=' ∉ pre) :
    (pre ++ '=' :: post).takeWhile (fun c => c != '=') = pre
    ∧ (pre ++ '=' :: post).dropWhile (fun c => c != '=') = '=' :: post := by
  induction pre with
  | nil => simp
  | cons c l ih =>
    have hc : c ≠ '=' := fun hc => h (by rw [hc]; exact List.mem_cons_self _ _)
    have hl : '=' ∉ l := fun hl => h (List.mem_cons_of_mem _ hl)
    have hb : (c != '=') = true := by simp [hc]
    simp [List.takeWhile_cons, List.dropWhile_cons, hb, (ih hl).1, (ih hl).2]

/-- C5: a header token with a literal `=` splits at the first `=`, the
trimmed left part being the name and the trimmed right part the value; a
token without `=` fails with `Expected key=value` naming the token; an
empty trimmed name fails with `Name is empty` naming the token; and an
undefined, boolean, empty-string or empty-list input yields `undefined`
(no headers) rather than an empty sequence. -/
theorem parseHeaders_spec :
    (∀ v : String, '=' ∉ v.data →
      parseHeaderToken v = Except.error (JsError.error
        ("Invalid --header value: " ++ v ++ ". Expected key=value.")))
    ∧ (∀ pre post : List Char, '=' ∉ pre →
        jsTrim (String.mk pre) ≠ "" →
        parseHeaderToken (String.mk (pre ++ '=' :: post))
          = Except.ok ⟨jsTrim (String.mk pre), jsTrim (String.mk post)⟩)
    ∧ (∀ pre post : List Char, '=' ∉ pre →
        jsTrim (String.mk pre) = "" →
        parseHeaderToken (String.mk (pre ++ '=' :: post))
          = Except.error (JsError.error ("Invalid --header value: "
            ++ String.mk (pre ++ '=' :: post) ++ ". Name is empty.")))
    ∧ parseHeaders none = Except.ok none
    ∧ (∀ b, parseHeaders (some (FlagVal.bool b)) = Except.ok none)
    ∧ parseHeaders (some (FlagVal.str "")) = Except.ok none
    ∧ parseHeaders (some (FlagVal.arr [])) = Except.ok none := by
  refine ⟨?_, ?_, ?_, rfl, fun b => rfl, rfl, rfl⟩
  · intro v h
    unfold parseHeaderToken
    rw [(takeWhile_no_eq v.data h).2]
  · intro pre post h hne
    unfold parseHeaderToken
    show (match (pre ++ '=' :: post).dropWhile (fun c => c != '=') with
      | [] => Except.error (JsError.error
          ("Invalid --header value: " ++ String.mk (pre ++ '=' :: post)
            ++ ". Expected key=value."))
      | _ :: after =>
        if jsTrim (String.mk ((pre ++ '=' :: post).takeWhile (fun c => c != '='))) = "" then
          Except.error (JsError.error ("Invalid --header value: "
            ++ String.mk (pre ++ '=' :: post) ++ ". Name is empty."))
        else Except.ok (WebhookHeader.mk
          (jsTrim (String.mk ((pre ++ '=' :: post).takeWhile (fun c => c != '='))))
          (jsTrim (String.mk after)))) = _
    rw [(takeWhile_first_eq pre post h).2]
    simp only [(takeWhile_first_eq pre post h).1]
    rw [if_neg hne]
  · intro pre post h he
    unfold parseHeaderToken
    show (match (pre ++ '=' :: post).dropWhile (fun c => c != '=') with
      | [] => Except.error (JsError.error
          ("Invalid --header value: " ++ String.mk (pre ++ '=' :: post)
            ++ ". Expected key=value."))
      | _ :: after =>
        if jsTrim (String.mk ((pre ++ '=' :: post).takeWhile (fun c => c != '='))) = "" then
          Except.error (JsError.error ("Invalid --header value: "
            ++ String.mk (pre ++ '=' :: post) ++ ". Name is empty."))
        else Except.ok (WebhookHeader.mk
          (jsTrim (String.mk ((pre ++ '=' :: post).takeWhile (fun c => c != '='))))
          (jsTrim (String.mk after)))) = _
    rw [(takeWhile_first_eq pre post h).2]
    simp only [(takeWhile_first_eq pre post h).1]
    rw [if_pos he]

/-- C5 witness: `x-api-key=secret` parses into the header
`{name: x-api-key, value: secret}`, `badtoken` fails with
`Expected key=value`, and `=value` fails with `Name is empty`. -/
theorem parseHeaders_spec_witness :
    parseHeaderToken (String.mk ("x-api-key".data ++ '=' :: "secret".data))
      = Except.ok ⟨"x-api-key", "secret"⟩
    ∧ parseHeaderToken "badtoken" = Except.error (JsError.error
        ("Invalid --header value: " ++ "badtoken" ++ ". Expected key=value."))
    ∧ parseHeaderToken (String.mk ("".data ++ '=' :: "value".data))
      = Except.error (JsError.error ("Invalid --header value: "
        ++ String.mk ("".data ++ '=' :: "value".data) ++ ". Name is empty.")) := by
  refine ⟨?_, ?_, ?_⟩
  · exact (parseHeaders_spec.2.1 "x-api-key".data "secret".data
      (by decide) (by decide)).trans (by rfl)
  · exact parseHeaders_spec.1 "badtoken" (by decide)
  · exact parseHeaders_spec.2.2.1 "".data "value".data (by decide) (by decide)

theorem getFlag_setKey_self (m : List (String × FlagVal)) (k : String) (v : FlagVal) :
    getFlag (setKey m k v) k = some v := by
  simp [getFlag, find?_setKey]

/-- The ordered values currently stored under an array-valued flag
(`[]` when the flag is absent or not an array). -/
def arrValues (m : List (String × FlagVal)) (k : String) : List String :=
  match getFlag m k with
  | some (FlagVal.arr xs) => xs
  | _ => []

/-- C6: the argument list `create --url https://e/x --event a:created
--event b:updated --header k=v` parses into command `create` with the
`url` string flag, the `event` values in left-to-right order, the
`header` value, and no positional parameters; in general every
`--event`/`-e` token with a following value appends that value to the
ordered `event` sequence, preserving order and duplicates. -/
theorem parseArgs_create_event_append :
    parseArgs ["node", "cli", "create", "--url", "https://e/x", "--event", "a:created",
        "--event", "b:updated", "--header", "k=v"]
      = { envFile := none, command := some "create", params := [],
          flags := [("url", FlagVal.str "https://e/x"),
            ("event", FlagVal.arr ["a:created", "b:updated"]),
            ("header", FlagVal.arr ["k=v"])] }
    ∧ (∀ flags params b rest, parseRest flags params ("--event" :: b :: rest)
        = parseRest (pushFlag flags "event" b) params rest)
    ∧ (∀ flags params b rest, parseRest flags params ("-e" :: b :: rest)
        = parseRest (pushFlag flags "event" b) params rest)
    ∧ (∀ flags b, getFlag (pushFlag flags "event" b) "event"
        = some (FlagVal.arr (arrValues flags "event" ++ [b]))) := by
  refine ⟨by decide, fun flags params b rest => rfl, fun flags params b rest => rfl, ?_⟩
  intro flags b
  unfold pushFlag arrValues
  cases h : getFlag flags "event" with
  | none => simp [getFlag_setKey_self]
  | some fv =>
    cases fv with
    | str s => simp [getFlag_setKey_self]
    | bool c => simp [getFlag_setKey_self]
    | arr xs => simp [getFlag_setKey_self]

/-- C7: an argument list that is empty or contains `--help` or `-h`
anywhere parses to the usage result: no env override, no command, no
positionals, empty flag map, whatever else is present. -/
theorem parseArgs_help_usage (argv : List String)
    (h : argv.drop 2 = [] ∨ "--help" ∈ argv.drop 2 ∨ "-h" ∈ argv.drop 2) :
    parseArgs argv = { envFile := none, command := none, params := [], flags := [] } := by
  unfold parseArgs
  rw [if_pos h]

/-- C7 witness: `--help` among other tokens yields the usage result. -/
theorem parseArgs_help_usage_witness :
    parseArgs ["node", "cli", "create", "--help", "--url", "x"]
      = { envFile := none, command := none, params := [], flags := [] } := by
  exact parseArgs_help_usage ["node", "cli", "create", "--help", "--url", "x"] (by decide)

/-- C8: after the command token, `--env` and its value are consumed and
discarded without touching the flag map or the positional parameters (so
the discarded value is never reinterpreted as a flag or positional), and
the env-path override of the result is exactly what the pre-command
global scan produced, whatever follows the command. -/
theorem parseArgs_env_after_command (flags : List (String × FlagVal))
    (params : List String) (v : String) (rest : List String) (argv : List String)
    (h : ¬(argv.drop 2 = [] ∨ "--help" ∈ argv.drop 2 ∨ "-h" ∈ argv.drop 2)) :
    parseRest flags params ("--env" :: v :: rest) = parseRest flags params rest
    ∧ parseRest flags params ["--env"] = (flags, params)
    ∧ (parseArgs argv).envFile = (globalScan (argv.drop 2) none).1 := by
  refine ⟨rfl, rfl, ?_⟩
  unfold parseArgs
  rw [if_neg h]
  rcases hg : globalScan (argv.drop 2) none with ⟨env, rest2⟩
  cases rest2 with
  | nil => simp [hg]
  | cons c r2 =>
    rcases hp : parseRest [] [] r2 with ⟨f2, p2⟩
    simp [hg, hp]

/-- C8 witness: with `--env g.env` before the command and `--env x.env`
after it, the override stays `g.env` and `x.env` appears nowhere in the
result. -/
theorem parseArgs_env_after_command_witness :
    (parseArgs ["node", "cli", "--env", "g.env", "create", "--env", "x.env", "foo"]).envFile
      = some "g.env"
    ∧ parseArgs ["node", "cli", "--env", "g.env", "create", "--env", "x.env", "foo"]
      = { envFile := some "g.env", command := some "create",
          params := ["foo"], flags := [] } := by
  refine ⟨?_, by decide⟩
  exact ((parseArgs_env_after_command [] [] "x" []
    ["node", "cli", "--env", "g.env", "create", "--env", "x.env", "foo"]
    (by decide)).2.2).trans rfl

/-- C10: a value-taking flag token (`--url`, `--event`, `-e`, `--header`,
`-H`) in last position has no lookahead value, so it falls through to the
boolean branch and is stored under its dash-stripped name with value
`true`; in particular a final `--url` overwrites an earlier `url` string
with `true`, and a final `-e` stores `e = true` instead of appending to
`event`. -/
theorem parseRest_trailing_value_flag :
    (∀ flags params, parseRest flags params ["--url"]
      = (setKey flags "url" (FlagVal.bool true), params))
    ∧ (∀ flags params, parseRest flags params ["--event"]
      = (setKey flags "event" (FlagVal.bool true), params))
    ∧ (∀ flags params, parseRest flags params ["-e"]
      = (setKey flags "e" (FlagVal.bool true), params))
    ∧ (∀ flags params, parseRest flags params ["--header"]
      = (setKey flags "header" (FlagVal.bool true), params))
    ∧ (∀ flags params, parseRest flags params ["-H"]
      = (setKey flags "H" (FlagVal.bool true), params))
    ∧ parseArgs ["node", "cli", "create", "--url", "x", "--url"]
      = { envFile := none, command := some "create", params := [],
          flags := [("url", FlagVal.bool true)] }
    ∧ parseArgs ["node", "cli", "create", "--event", "a", "-e"]
      = { envFile := none, command := some "create", params := [],
          flags := [("event", FlagVal.arr ["a"]), ("e", FlagVal.bool true)] } := by
  exact ⟨fun flags params => rfl, fun flags params => rfl, fun flags params => rfl,
    fun flags params => rfl, fun flags params => rfl, by decide, by decide⟩
